import Mathlib

/-!
# VibeTrading — shallow embedding and verification

A shallow embedding of the trading core of the VibeTrading repository,
translated from the Python sources, together with theorems settling the
specification claims about it.

Modelling conventions, used throughout:

* `decimal.Decimal` values are modelled as `ℚ`.  Python's `Decimal` context
  rounds results to 28 significant digits; that rounding is modelled as exact
  rational arithmetic.  Float excursions (`Decimal(str(float_expr))`) are
  likewise modelled exactly.
* `datetime` values are modelled as `Int` day numbers; `timedelta(days = n)`
  is addition of `n`, and `(a - b).days` is `a - b`.
* Python `dict`s are modelled as insertion-ordered association lists
  (`List (String × β)`) with lookup `dget`, update `dset` (updating an
  existing key in place, appending a fresh key) and deletion `ddel`,
  matching CPython dict semantics.
* `random.seed` / `random.uniform` (the module-global Mersenne-Twister PRNG)
  are modelled by an abstract deterministic generator `RandomLib σ`: `seed`
  maps an integer seed to a generator state and `uniform` draws a value in
  the requested interval, returning the next state.  Theorems quantify over
  all such generators; concrete instances evaluate witnesses.
* `uuid4()` and `datetime.utcnow()` produce values that flow only into
  fields never read by any computation under verification (fill ids and
  fill timestamps); they are modelled by fixed constants, as noted at each
  use site.
-/

namespace VibeTrading

/-! ## Domain types (src/shared/models.py) -/

/-- `Market` enum: CRYPTO / KR / US. -/
inductive Market
  | crypto
  | kr
  | us
deriving DecidableEq, Repr

/-- `TradingMode` enum. -/
inductive TradingMode
  | backtest
  | paper
  | live
deriving DecidableEq, Repr

/-- `OrderSide` enum. -/
inductive OrderSide
  | buy
  | sell
deriving DecidableEq, Repr

/-- `OrderSide.value` — the string payload of the Python `str`-enum. -/
def OrderSide.value : OrderSide → String
  | .buy => "buy"
  | .sell => "sell"

/-- `OrderType` enum. -/
inductive OrderType
  | market
  | limit
  | stop
  | stopLimit
deriving DecidableEq, Repr

/-- `SignalAction` enum. -/
inductive SignalAction
  | enterLong
  | exitLong
  | enterShort
  | exitShort
deriving DecidableEq, Repr

/-- `Candle` (OHLCV bar).  The `id` UUID of `BaseEvent` is omitted: it is
never read.  `open` is a Lean keyword, so the open price field is `open_p`. -/
structure Candle where
  market : Market
  symbol : String
  timestamp : Int
  open_p : ℚ
  high : ℚ
  low : ℚ
  close : ℚ
  volume : ℚ
deriving DecidableEq, Repr

/-- `Signal` event (id UUID omitted; metadata omitted: never read by the
code under verification). -/
structure Signal where
  market : Market
  timestamp : Int
  symbol : String
  action : SignalAction
  strength : ℚ := 1
  strategy_name : String
  price_at_signal : ℚ
  mode : TradingMode
deriving DecidableEq, Repr

/-- `Order` — the fields read by the fill simulator and order manager.
`id`/timestamps/status are omitted: order ids are modelled externally where
needed, and no computation under verification reads the other fields. -/
structure Order where
  market : Market
  mode : TradingMode
  symbol : String
  side : OrderSide
  order_type : OrderType
  quantity : ℚ
  filled_quantity : ℚ := 0
  price : Option ℚ := none
  stop_price : Option ℚ := none
  strategy_name : String
deriving DecidableEq, Repr

/-- `Order.remaining_quantity = quantity - filled_quantity`. -/
def Order.remaining_quantity (o : Order) : ℚ :=
  o.quantity - o.filled_quantity

/-- `Fill` record (id / order_id UUIDs omitted, metadata omitted). -/
structure Fill where
  timestamp : Int
  market : Market
  mode : TradingMode
  symbol : String
  side : OrderSide
  quantity : ℚ
  price : ℚ
  commission : ℚ := 0
  commission_asset : Option String := none
  slippage_bps : ℚ := 0
  latency_ms : Int := 0
deriving DecidableEq, Repr

/-- `Position` record (id UUID omitted, metadata omitted). -/
structure Position where
  market : Market
  mode : TradingMode
  symbol : String
  side : OrderSide
  quantity : ℚ
  avg_entry_price : ℚ
  current_price : Option ℚ := none
  unrealized_pnl : ℚ := 0
  realized_pnl : ℚ := 0
  strategy_name : String
  opened_at : Int
  updated_at : Int := 0
  closed_at : Option Int := none
deriving DecidableEq, Repr

/-- `Position.is_open ⇔ closed_at is None`. -/
def Position.is_open (p : Position) : Bool :=
  p.closed_at = none

/-- `StrategyContext` passed to a strategy on each candle. -/
structure StrategyContext where
  market : Market
  mode : TradingMode
  symbol : String
  current_time : Int
  current_price : ℚ
  position : Option Position

/-! ## Python dict model -/

/-- Dict lookup (`d.get(k)` / `d[k]`). -/
def dget {β : Type} : List (String × β) → String → Option β
  | [], _ => none
  | (k, v) :: rest, key => if k = key then some v else dget rest key

/-- Dict update `d[k] = v`: replaces the value of an existing key in place,
appends a fresh key at the end (CPython insertion order). -/
def dset {β : Type} : List (String × β) → String → β → List (String × β)
  | [], key, v => [(key, v)]
  | (k, v0) :: rest, key, v =>
      if k = key then (k, v) :: rest else (k, v0) :: dset rest key v

/-- Dict deletion `del d[k]` / `d.pop(k, None)`. -/
def ddel {β : Type} : List (String × β) → String → List (String × β)
  | [], _ => []
  | (k, v) :: rest, key => if k = key then rest else (k, v) :: ddel rest key

/-- `d.values()` in insertion order. -/
def dvalues {β : Type} (d : List (String × β)) : List β :=
  d.map Prod.snd

/-! ## PRNG interface (Python `random` module) -/

/-- Interface of the module-global PRNG: `seed` re-seeds it from an integer,
`uniform g a b` draws a value and returns the advanced state.  The contract
field records that `random.uniform(a, b)` returns a value in `[a, b]`. -/
structure RandomLib (σ : Type) where
  seed : Int → σ
  uniform : σ → ℚ → ℚ → ℚ × σ
  uniform_mem : ∀ g a b, a ≤ b → a ≤ (uniform g a b).1 ∧ (uniform g a b).1 ≤ b

/-- A concrete generator returning the midpoint of the requested interval,
used to evaluate witnesses and counterexamples on closed inputs. -/
def midRandom : RandomLib Unit where
  seed := fun _ => ()
  uniform := fun g a b => ((a + b) / 2, g)
  uniform_mem := by
    intro g a b hab
    constructor <;> · simp only; linarith

/-- Python `int(x)` — truncation toward zero. -/
def pyInt (q : ℚ) : Int :=
  if 0 ≤ q then ⌊q⌋ else -⌊-q⌋

/-! ## Fill logic (src/shared/fill_logic.py, src/shared/config.py) -/

/-- `FillLogicSettings` (src/shared/config.py) with its defaults. -/
structure FillLogicSettings where
  slippage_bps_crypto : Int := 10
  slippage_bps_kr : Int := 5
  slippage_bps_us : Int := 3
  min_latency_ms : Int := 50
deriving DecidableEq, Repr

/-- `FillLogicSettings.get_slippage_bps`. -/
def FillLogicSettings.get_slippage_bps (s : FillLogicSettings) : Market → Int
  | .crypto => s.slippage_bps_crypto
  | .kr => s.slippage_bps_kr
  | .us => s.slippage_bps_us

/-- `FillSimulator` object state: settings plus the two optional overrides. -/
structure FillSimulator where
  settings : FillLogicSettings
  slippage_override : Option Int := none
  latency_override : Option Int := none
deriving DecidableEq, Repr

/-- `FillSimulator.get_slippage_bps`: the override if set, else the per-market
setting. -/
def FillSimulator.get_slippage_bps (sim : FillSimulator) (market : Market) : Int :=
  sim.slippage_override.getD (sim.settings.get_slippage_bps market)

/-- `FillSimulator.get_min_latency_ms`. -/
def FillSimulator.get_min_latency_ms (sim : FillSimulator) : Int :=
  sim.latency_override.getD sim.settings.min_latency_ms

/-- `FillSimulator.calculate_slippage`: draws a variation in `[0.5, 1.5]`,
multiplies the per-market base bps by it (and by the constant size factor 1),
and applies the price adjustment adversely to the order side.  Returns
`((adjusted_price, actual_bps), next_rng)`.  The unused `quantity` parameter
mirrors the source signature. -/
def FillSimulator.calculate_slippage {σ : Type} (R : RandomLib σ) (sim : FillSimulator)
    (market : Market) (side : OrderSide) (base_price : ℚ) (_quantity : ℚ) (g : σ) :
    (ℚ × ℚ) × σ :=
  let base_bps : Int := sim.get_slippage_bps market
  let vg := R.uniform g (1 / 2) (3 / 2)
  let variation := vg.1
  let actual_bps : ℚ := (base_bps : ℚ) * variation
  let size_factor : ℚ := 1
  let actual_bps := actual_bps * size_factor
  let adjustment := base_price * actual_bps / 10000
  let adjusted_price :=
    if side = OrderSide.buy then base_price + adjustment else base_price - adjustment
  ((adjusted_price, actual_bps), vg.2)

/-- `FillSimulator.calculate_latency_ms`: `max(int(min_latency * (1 + U[0,1])), 1)`. -/
def FillSimulator.calculate_latency_ms {σ : Type} (R : RandomLib σ) (sim : FillSimulator)
    (g : σ) : Int × σ :=
  let min_latency := sim.get_min_latency_ms
  let jg := R.uniform g 0 1
  let jitter := jg.1
  let actual_latency := pyInt ((min_latency : ℚ) * (1 + jitter))
  (max actual_latency 1, jg.2)

/-- `FillSimulator.calculate_commission`: per-market notional fee rate and
quote asset. -/
def FillSimulator.calculate_commission (market : Market) (quantity : ℚ) (price : ℚ) :
    ℚ × String :=
  let notional := quantity * price
  let rate : ℚ :=
    match market with
    | .crypto => 1 / 1000
    | .kr => 15 / 100000
    | .us => 1 / 10000
  let commission := notional * rate
  let commission_asset :=
    match market with
    | .us => "USD"
    | .crypto => "USDT"
    | .kr => "KRW"
  (commission, commission_asset)

/-- The base execution price chosen by `simulate_fill`: the market price for
MARKET orders; for a LIMIT order with a truthy (non-`None`, non-zero) price,
`min`/`max` of limit and market price per side; the market price otherwise.
(The Python condition `order.order_type == LIMIT and order.price` is a
truthiness test, hence the `p ≠ 0` guard.) -/
def fill_base_price (order : Order) (market_price : ℚ) : ℚ :=
  if order.order_type = OrderType.market then market_price
  else
    match order.price with
    | some p =>
        if order.order_type = OrderType.limit ∧ p ≠ 0 then
          if order.side = OrderSide.buy then min p market_price else max p market_price
        else market_price
    | none => market_price

/-- Result record of a fill simulation. -/
structure FillResult where
  fill : Fill
  executed_price : ℚ
  slippage_bps : ℚ
  latency_ms : Int
  commission : ℚ
deriving DecidableEq, Repr

/-- `FillSimulator.simulate_fill`: base price, adverse slippage, latency,
commission, and the emitted `Fill`.  `timestamp = none` models the
`datetime.utcnow()` default as the constant 0 — the fill timestamp is never
read by any verified computation. -/
def FillSimulator.simulate_fill {σ : Type} (R : RandomLib σ) (sim : FillSimulator)
    (order : Order) (market_price : ℚ) (timestamp : Option Int) (g : σ) :
    FillResult × σ :=
  let ts := timestamp.getD 0
  let base_price := fill_base_price order market_price
  let sres := sim.calculate_slippage R order.market order.side base_price
    order.remaining_quantity g
  let executed_price := sres.1.1
  let slippage_bps := sres.1.2
  let lres := sim.calculate_latency_ms R sres.2
  let latency_ms := lres.1
  let cres := FillSimulator.calculate_commission order.market order.remaining_quantity
    executed_price
  let fill : Fill :=
    { timestamp := ts
      market := order.market
      mode := order.mode
      symbol := order.symbol
      side := order.side
      quantity := order.remaining_quantity
      price := executed_price
      commission := cres.1
      commission_asset := some cres.2
      slippage_bps := slippage_bps
      latency_ms := latency_ms }
  (⟨fill, executed_price, slippage_bps, latency_ms, cres.1⟩, lres.2)

/-- `FillSimulator.can_fill_limit_order`. -/
def FillSimulator.can_fill_limit_order (order : Order) (market_price : ℚ) : Bool :=
  if order.order_type ≠ OrderType.limit ∨ order.price = none then true
  else
    match order.price with
    | some p => if order.side = OrderSide.buy then market_price ≤ p else p ≤ market_price
    | none => true

/-- The module-global state of `src/shared/fill_logic.py`: the cached
`_default_simulator` and the `random` module's generator state. -/
structure FillGlobal (σ : Type) where
  default_simulator : Option FillSimulator
  rng : σ

/-- `FillSimulator.__init__`: reads settings, stores overrides, and re-seeds
the global PRNG when a seed is given. -/
def FillSimulator.init {σ : Type} (R : RandomLib σ) (settings : FillLogicSettings)
    (random_seed : Option Int) (g : σ) : FillSimulator × σ :=
  (⟨settings, none, none⟩,
    match random_seed with
    | some s => R.seed s
    | none => g)

/-- `get_fill_simulator`: returns the cached module-global simulator, creating
a fresh one (and re-seeding the PRNG) when the cache is empty or a seed is
passed.  The `getD` fallback in the cached branch is unreachable (the cache
is `some` there). -/
def get_fill_simulator {σ : Type} (R : RandomLib σ) (settings : FillLogicSettings)
    (random_seed : Option Int) (glob : FillGlobal σ) : FillSimulator × FillGlobal σ :=
  if glob.default_simulator.isNone || random_seed.isSome then
    let sg := FillSimulator.init R settings random_seed glob.rng
    (sg.1, ⟨some sg.1, sg.2⟩)
  else
    (glob.default_simulator.getD ⟨settings, none, none⟩, glob)

/-! ## Signal generation engine (src/services/signal_gen/engine.py)

The strategy itself is the black box the claims quantify over: it is
modelled as a deterministic transition system `Strategy α` with an initial
state (the state after `initialize()`), an `on_candle` step and a `reset`.
-/

/-- A loaded strategy, as a deterministic transition system. -/
structure Strategy (α : Type) where
  init : α
  on_candle : α → Candle → StrategyContext → List Signal × α
  reset : α → α

/-- The mutable state of a `SignalGenerationEngine`: the lazily loaded
strategy state, the tracked positions, and the last prices.  (In Python the
tracked `Position` objects are aliases of the backtest engine's objects;
here they are value snapshots taken at `update_position` time.  No claim
under verification depends on fields of the snapshot that can go stale.) -/
structure SigEngineState (α : Type) where
  strategy : Option α
  positions : List (String × Position)
  last_prices : List (String × ℚ)

/-- `SignalGenerationEngine.process_candle_sync`: lazily initialise the
strategy, record the last price, build the context and run the strategy. -/
def process_candle_sync {α : Type} (strat : Strategy α) (market : Market)
    (mode : TradingMode) (s : SigEngineState α) (candle : Candle) :
    List Signal × SigEngineState α :=
  let st := s.strategy.getD strat.init
  let last_prices := dset s.last_prices candle.symbol candle.close
  let context : StrategyContext :=
    ⟨market, mode, candle.symbol, candle.timestamp, candle.close,
      dget s.positions candle.symbol⟩
  let res := strat.on_candle st candle context
  (res.1, ⟨some res.2, s.positions, last_prices⟩)

/-- `SignalGenerationEngine.update_position`: track open positions, drop
closed ones. -/
def SigEngineState.update_position {α : Type} (s : SigEngineState α) (p : Position) :
    SigEngineState α :=
  if p.closed_at = none then { s with positions := dset s.positions p.symbol p }
  else { s with positions := ddel s.positions p.symbol }

/-- `SignalGenerationEngine.reset`: clear positions and prices, reset the
strategy if loaded. -/
def SigEngineState.reset {α : Type} (strat : Strategy α) (s : SigEngineState α) :
    SigEngineState α :=
  ⟨s.strategy.map strat.reset, [], []⟩

/-! ## Broker stub (src/vibetrading_V1/services/execution/broker_stub.py)

Only `set_price` and `reset` are reached on the backtest path; the broker's
price map and balance are carried for fidelity but never read back. -/

/-- The `BrokerStub` state reachable from the backtest engine. -/
structure BrokerStubState where
  balance : ℚ
  last_prices : List (String × ℚ)
deriving DecidableEq, Repr

/-- `BrokerStub.set_price`. -/
def BrokerStubState.set_price (b : BrokerStubState) (symbol : String) (price : ℚ) :
    BrokerStubState :=
  { b with last_prices := dset b.last_prices symbol price }

/-! ## Backtest engine (src/backtest/engine.py) -/

/-- `BacktestConfig` with its defaults. -/
structure BacktestConfig where
  market : Market
  strategy_name : String
  symbols : List String
  start_date : Int
  end_date : Int
  initial_capital : ℚ := 100000
  random_seed : Int := 42
  slippage_bps : ℚ := 5
  commission_bps : ℚ := 10
deriving DecidableEq, Repr

/-- `TradeRecord` for a completed trade (`side` holds `side.value`). -/
structure TradeRecord where
  symbol : String
  side : String
  entry_time : Int
  exit_time : Int
  entry_price : ℚ
  exit_price : ℚ
  quantity : ℚ
  pnl : ℚ
  pnl_pct : ℚ
  holding_period_days : Int
deriving DecidableEq, Repr

/-- `BacktestResult`.  The source field `sharpe_ratio` is named `sharpe`
here. -/
structure BacktestResult where
  total_return_pct : ℚ := 0
  annualized_return_pct : ℚ := 0
  sharpe : ℚ := 0
  max_drawdown_pct : ℚ := 0
  total_trades : Nat := 0
  winning_trades : Nat := 0
  losing_trades : Nat := 0
  win_rate_pct : ℚ := 0
  avg_win_pct : ℚ := 0
  avg_loss_pct : ℚ := 0
  profit_factor : ℚ := 0
  trades : List TradeRecord := []
  equity_curve : List (Int × ℚ) := []
  daily_returns : List ℚ := []
deriving DecidableEq, Repr

/-- A `BacktestEngine` together with its collaborators: the PRNG model, the
fill-logic settings, the loaded strategy, the configuration, and a model
`stdev` of Python's `statistics.stdev` (sample standard deviation wrapped
in `Decimal(str(·))`), kept abstract because its value is irrational in
general.  `decimal_sqrt_252` below models `Decimal("252").sqrt()`. -/
structure BacktestEngine (α σ : Type) where
  R : RandomLib σ
  settings : FillLogicSettings
  strat : Strategy α
  config : BacktestConfig
  stdev : List ℚ → ℚ

/-- `Decimal("252").sqrt()` at the default 28-digit context. -/
def decimal_sqrt_252 : ℚ :=
  1587450786638754354300969452 / 10 ^ 26

/-- The engine-owned state of a `BacktestEngine` (the module-global
`FillGlobal` is threaded separately, as in the source, where it lives in
the `fill_logic` and `random` modules, not on the engine object). -/
structure EngineState (α : Type) where
  broker : BrokerStubState
  sigeng : SigEngineState α
  current_time : Option Int
  positions : List (String × Position)
  trades : List TradeRecord
  equity_curve : List (Int × ℚ)
  peak_equity : ℚ
  max_drawdown : ℚ

/-- `BacktestEngine._calculate_equity`: initial capital, plus realized P&L
of every recorded trade, plus unrealized P&L of every tracked position
(Python's `if position.unrealized_pnl:` skips zero values — a truthiness
test). -/
def calculate_equity {α : Type} (cfg : BacktestConfig) (s : EngineState α) : ℚ :=
  let balance := cfg.initial_capital
  let balance := s.trades.foldl (fun b t => b + t.pnl) balance
  let balance := (dvalues s.positions).foldl
    (fun b p => if p.unrealized_pnl ≠ 0 then b + p.unrealized_pnl else b) balance
  balance

/-- `BacktestEngine._update_position_pnl`. -/
def update_position_pnl (p : Position) : Position :=
  match p.current_price with
  | none => p
  | some cp =>
      if p.side = OrderSide.buy then
        { p with unrealized_pnl := (cp - p.avg_entry_price) * p.quantity }
      else
        { p with unrealized_pnl := (p.avg_entry_price - cp) * p.quantity }

/-- `BacktestEngine._open_position`: size from initial capital, simulate the
entry fill (via `get_fill_simulator(seed)`, which re-seeds the global PRNG),
create and track the position. -/
def open_position {α σ : Type} (E : BacktestEngine α σ) (s : EngineState α)
    (glob : FillGlobal σ) (signal : Signal) (candle : Candle) (side : OrderSide) :
    EngineState α × FillGlobal σ :=
  let balance := E.config.initial_capital
  let position_value := balance * (1 / 10)
  let quantity := position_value / candle.close
  let simg := get_fill_simulator E.R E.settings (some E.config.random_seed) glob
  let simulator := simg.1
  let order : Order :=
    { market := E.config.market
      mode := TradingMode.backtest
      symbol := signal.symbol
      side := side
      order_type := OrderType.market
      quantity := quantity
      strategy_name := E.config.strategy_name }
  let resg := simulator.simulate_fill E.R order candle.close none simg.2.rng
  let result := resg.1
  let position : Position :=
    { market := E.config.market
      mode := TradingMode.backtest
      symbol := signal.symbol
      side := side
      quantity := quantity
      avg_entry_price := result.executed_price
      current_price := some result.executed_price
      strategy_name := E.config.strategy_name
      opened_at := candle.timestamp }
  ({ s with
      positions := dset s.positions signal.symbol position
      sigeng := s.sigeng.update_position position },
    ⟨simg.2.default_simulator, resg.2⟩)

/-- `BacktestEngine._close_position`: simulate the exit fill, compute P&L,
record the trade, drop the position, and tell the signal engine. -/
def close_position {α σ : Type} (E : BacktestEngine α σ) (s : EngineState α)
    (glob : FillGlobal σ) (position : Position) (candle : Candle) :
    EngineState α × FillGlobal σ :=
  let simg := get_fill_simulator E.R E.settings (some E.config.random_seed) glob
  let simulator := simg.1
  let exit_side :=
    if position.side = OrderSide.buy then OrderSide.sell else OrderSide.buy
  let order : Order :=
    { market := E.config.market
      mode := TradingMode.backtest
      symbol := position.symbol
      side := exit_side
      order_type := OrderType.market
      quantity := position.quantity
      strategy_name := E.config.strategy_name }
  let resg := simulator.simulate_fill E.R order candle.close none simg.2.rng
  let result := resg.1
  let pnl :=
    if position.side = OrderSide.buy then
      (result.executed_price - position.avg_entry_price) * position.quantity
    else
      (position.avg_entry_price - result.executed_price) * position.quantity
  let pnl_pct := pnl / (position.avg_entry_price * position.quantity) * 100
  let holding_days := candle.timestamp - position.opened_at
  let trade : TradeRecord :=
    { symbol := position.symbol
      side := position.side.value
      entry_time := position.opened_at
      exit_time := candle.timestamp
      entry_price := position.avg_entry_price
      exit_price := result.executed_price
      quantity := position.quantity
      pnl := pnl
      pnl_pct := pnl_pct
      holding_period_days := max 1 holding_days }
  let closed := { position with closed_at := some candle.timestamp }
  ({ s with
      trades := s.trades ++ [trade]
      positions := ddel s.positions position.symbol
      sigeng := s.sigeng.update_position closed },
    ⟨simg.2.default_simulator, resg.2⟩)

/-- `BacktestEngine._process_signal`: dispatch on the action against the
currently tracked position for the signal's symbol. -/
def process_signal {α σ : Type} (E : BacktestEngine α σ) (s : EngineState α)
    (glob : FillGlobal σ) (signal : Signal) (candle : Candle) :
    EngineState α × FillGlobal σ :=
  let existing_position := dget s.positions signal.symbol
  match signal.action with
  | .enterLong =>
      if existing_position = none then open_position E s glob signal candle OrderSide.buy
      else (s, glob)
  | .exitLong =>
      match existing_position with
      | some p =>
          if p.side = OrderSide.buy then close_position E s glob p candle else (s, glob)
      | none => (s, glob)
  | .enterShort =>
      if existing_position = none then open_position E s glob signal candle OrderSide.sell
      else (s, glob)
  | .exitShort =>
      match existing_position with
      | some p =>
          if p.side = OrderSide.sell then close_position E s glob p candle else (s, glob)
      | none => (s, glob)

/-- Steps 1-3 of `BacktestEngine._process_candle`: advance the clock,
refresh the broker price, and re-mark the tracked position for the bar's
symbol. -/
def process_candle_pre {α : Type} (E : BacktestEngine α σ') (s : EngineState α)
    (candle : Candle) : EngineState α :=
  let s := { s with
    current_time := some candle.timestamp
    broker := s.broker.set_price candle.symbol candle.close }
  match dget s.positions candle.symbol with
  | some pos =>
      let pos := update_position_pnl { pos with current_price := some candle.close }
      { s with positions := dset s.positions candle.symbol pos }
  | none => s

/-- Step 5 of `BacktestEngine._process_candle`: the `for signal in signals`
loop over `_process_signal`. -/
def process_signals {α σ : Type} (E : BacktestEngine α σ) (signals : List Signal)
    (sg : EngineState α × FillGlobal σ) (candle : Candle) :
    EngineState α × FillGlobal σ :=
  signals.foldl (fun p sig => process_signal E p.1 p.2 sig candle) sg

/-- Steps 6-7 of `BacktestEngine._process_candle`: record equity and track
drawdown. -/
def process_candle_post {α : Type} (E : BacktestEngine α σ') (s : EngineState α)
    (candle : Candle) : EngineState α :=
  let equity := calculate_equity E.config s
  let s := { s with equity_curve := s.equity_curve ++ [(candle.timestamp, equity)] }
  let peak := if equity > s.peak_equity then equity else s.peak_equity
  let drawdown := (peak - equity) / peak * 100
  { s with
    peak_equity := peak
    max_drawdown := if drawdown > s.max_drawdown then drawdown else s.max_drawdown }

/-- `BacktestEngine._process_candle`: the pre-steps, the strategy invocation
(step 4), the signal loop, and the post-steps, in source order. -/
def process_candle {α σ : Type} (E : BacktestEngine α σ)
    (sg : EngineState α × FillGlobal σ) (candle : Candle) :
    EngineState α × FillGlobal σ :=
  let s := process_candle_pre E sg.1 candle
  let sigres := process_candle_sync E.strat E.config.market TradingMode.backtest
    s.sigeng candle
  let s := { s with sigeng := sigres.2 }
  let sg2 := process_signals E sigres.1 (s, sg.2) candle
  (process_candle_post E sg2.1 candle, sg2.2)

/-- `BacktestEngine._close_all_positions`: append a synthetic exit trade for
every tracked position, at its last known price.  Python's
`position.current_price or position.avg_entry_price` is a truthiness test,
hence the `p ≠ 0` guard.  Note the source does not remove the positions
from the map nor set `closed_at`. -/
def close_position_at_end (current_time : Option Int) (position : Position) :
    TradeRecord :=
  let price :=
    match position.current_price with
    | some p => if p ≠ 0 then p else position.avg_entry_price
    | none => position.avg_entry_price
  let pnl :=
    if position.side = OrderSide.buy then
      (price - position.avg_entry_price) * position.quantity
    else
      (position.avg_entry_price - price) * position.quantity
  let pnl_pct := pnl / (position.avg_entry_price * position.quantity) * 100
  { symbol := position.symbol
    side := position.side.value
    entry_time := position.opened_at
    exit_time := current_time.getD position.opened_at
    entry_price := position.avg_entry_price
    exit_price := price
    quantity := position.quantity
    pnl := pnl
    pnl_pct := pnl_pct
    holding_period_days := 1 }

/-- `BacktestEngine._close_all_positions` over the whole position map. -/
def close_all_positions {α : Type} (s : EngineState α) : EngineState α :=
  { s with
    trades := s.trades ++ (dvalues s.positions).map (close_position_at_end s.current_time) }

/-- `BacktestEngine._calculate_results`: trade statistics, profit factor,
total return, per-bar returns, and the Sharpe ratio.  `win_rate_pct` goes
through float division in the source (`Decimal(str(...))`), modelled
exactly. -/
def calculate_results {α σ : Type} (E : BacktestEngine α σ) (s : EngineState α) :
    BacktestResult :=
  let result : BacktestResult :=
    { trades := s.trades
      equity_curve := s.equity_curve
      max_drawdown_pct := s.max_drawdown
      total_trades := s.trades.length }
  if s.trades.length = 0 then result
  else
    let winners := s.trades.filter (fun t => t.pnl > 0)
    let losers := s.trades.filter (fun t => t.pnl ≤ 0)
    let result := { result with
      winning_trades := winners.length
      losing_trades := losers.length
      win_rate_pct := (winners.length : ℚ) / (s.trades.length : ℚ) * 100 }
    let result :=
      if winners ≠ [] then
        { result with avg_win_pct := (winners.map TradeRecord.pnl_pct).sum / winners.length }
      else result
    let result :=
      if losers ≠ [] then
        { result with
          avg_loss_pct := |(losers.map TradeRecord.pnl_pct).sum / losers.length| }
      else result
    let gross_profit := if winners ≠ [] then (winners.map TradeRecord.pnl).sum else 0
    let gross_loss := if losers ≠ [] then |(losers.map TradeRecord.pnl).sum| else 1 / 100
    let result := { result with
      profit_factor := if gross_loss > 0 then gross_profit / gross_loss else 0 }
    let final_equity := calculate_equity E.config s
    let result := { result with
      total_return_pct :=
        (final_equity - E.config.initial_capital) / E.config.initial_capital * 100 }
    if s.equity_curve.length > 1 then
      let daily_returns :=
        (s.equity_curve.zip (s.equity_curve.drop 1)).filterMap
          (fun pc => if pc.1.2 > 0 then some ((pc.2.2 - pc.1.2) / pc.1.2) else none)
      let result := { result with daily_returns := daily_returns }
      if daily_returns ≠ [] then
        let avg_ret := daily_returns.sum / daily_returns.length
        let std_ret := if daily_returns.length > 1 then E.stdev daily_returns else 1
        if std_ret > 0 then
          { result with sharpe := avg_ret * decimal_sqrt_252 / std_ret }
        else result
      else result
    else result

/-- The engine state after `__init__` + `_reset`: fresh broker, fresh signal
engine, empty tracking state, peak equity at the initial capital. -/
def initial_state {α σ : Type} (E : BacktestEngine α σ) : EngineState α :=
  { broker := ⟨E.config.initial_capital, []⟩
    sigeng := ⟨none, [], []⟩
    current_time := none
    positions := []
    trades := []
    equity_curve := []
    peak_equity := E.config.initial_capital
    max_drawdown := 0 }

/-- `BacktestEngine.run` up to the final force-close: fold the candles
through `_process_candle`, then `_close_all_positions`. -/
def run_state {α σ : Type} (E : BacktestEngine α σ) (glob : FillGlobal σ)
    (candles : List Candle) : EngineState α × FillGlobal σ :=
  let sg := candles.foldl (process_candle E) (initial_state E, glob)
  (close_all_positions sg.1, sg.2)

/-- `BacktestEngine.run`: process all candles, force-close, compute results. -/
def run {α σ : Type} (E : BacktestEngine α σ) (glob : FillGlobal σ)
    (candles : List Candle) : BacktestResult :=
  calculate_results E (run_state E glob candles).1

/-! ## Walk-forward validation (src/backtest/walk_forward.py) -/

/-- `WalkForwardConfig` with its defaults (dates as day numbers). -/
structure WalkForwardConfig where
  market : Market
  strategy_name : String
  symbols : List String
  start_date : Int
  end_date : Int
  in_sample_days : Int := 252
  out_of_sample_days : Int := 63
  step_days : Int := 63
  initial_capital : ℚ := 100000
  random_seed : Int := 42
deriving DecidableEq, Repr

/-- `WalkForwardWindow`. -/
structure WalkForwardWindow where
  window_id : Nat
  in_sample_start : Int
  in_sample_end : Int
  out_of_sample_start : Int
  out_of_sample_end : Int
deriving DecidableEq, Repr

/-- The body of the `while True` loop of
`WalkForwardValidator.generate_windows`, as a fuelled recursion.  When
`step_days ≥ 1` the Python loop performs at most `end_date − start_date + 1`
iterations, so the fuel supplied by `generate_windows` below never runs out
and the fuelled recursion computes the same window list; when
`step_days ≤ 0` the Python loop diverges (with `oos_end ≤ end_date`). -/
def generate_windows_loop (cfg : WalkForwardConfig) :
    Nat → Int → Nat → List WalkForwardWindow
  | 0, _, _ => []
  | fuel + 1, current_is_start, window_id =>
      let is_end := current_is_start + cfg.in_sample_days
      let oos_start := is_end
      let oos_end := oos_start + cfg.out_of_sample_days
      if oos_end > cfg.end_date then []
      else
        ⟨window_id, current_is_start, is_end, oos_start, oos_end⟩ ::
          generate_windows_loop cfg fuel (current_is_start + cfg.step_days)
            (window_id + 1)

/-- `WalkForwardValidator.generate_windows`. -/
def generate_windows (cfg : WalkForwardConfig) : List WalkForwardWindow :=
  generate_windows_loop cfg ((cfg.end_date - cfg.start_date).toNat + 1)
    cfg.start_date 0

/-! ## Strategy sandbox (src/vibetrading_V2/strategy/sandbox.py)

A strategy file is represented by the list of module names that its
AST-level imports mention, ordered as `_iter_imports` enumerates them (a
relative one contributes the pseudo-name `relative(level=k)`). -/

/-- `DEFAULT_ALLOWED_IMPORT_PREFIXES` (named without the last word, which is
unavailable here). -/
def DEFAULT_ALLOWED_IMPORTS : List String :=
  ["vibetrading_V2.core", "vibetrading_V2.strategy.base",
   "vibetrading_V2.strategy.bundle", "__future__", "typing", "dataclasses",
   "math", "numpy", "pandas"]

/-- `DEFAULT_DENIED_IMPORT_PREFIXES`. -/
def DEFAULT_DENIED_IMPORTS : List String :=
  ["vibetrading_V2.runner", "vibetrading_V2.execution", "vibetrading_V2.data",
   "cli", "os", "pathlib", "io", "socket", "asyncio", "sqlalchemy", "psycopg",
   "redis", "nats", "requests", "httpx", "websockets", "aiohttp", "binance"]

/-- `str.startswith`, computed on the underlying character lists. -/
def py_startswith (s p : String) : Bool :=
  p.data.isPrefixOf s.data

/-- `_matches_prefix`: the module name equals the list entry or extends it
past a dot. -/
def matches_pfx (module_name : String) (pfxs : List String) : Bool :=
  pfxs.any (fun p => module_name == p || py_startswith module_name (p ++ "."))

/-- Outcome of `validate_strategy_imports` (which returns `None` or raises
`StrategyImportViolationError`). -/
inductive SandboxOutcome
  | accepted
  | importViolation
deriving DecidableEq, Repr

/-- `validate_strategy_imports` on the extracted import list: an import
matching the deny list is forbidden; otherwise one matching no allow-list
entry is unsupported; any of either rejects the file. -/
def validate_strategy_imports (imports : List String)
    (allowed denied : List String) : SandboxOutcome :=
  let forbidden := imports.filter (fun m => matches_pfx m denied)
  let unsupported :=
    imports.filter (fun m => !matches_pfx m denied && !matches_pfx m allowed)
  if forbidden.isEmpty && unsupported.isEmpty then .accepted else .importViolation

/-- The root module of a dotted import name (the text before the first dot),
used to state the claim's "root module" reading of the policy. -/
def root_module (module_name : String) : String :=
  String.mk (module_name.data.takeWhile (fun c => c ≠ '.'))

/-! ## Kill switch and order manager
(src/services/risk_engine/kill_switch.py,
 src/services/execution/order_manager.py) -/

/-- `KillSwitch` state (`triggered_at` as a day number). -/
structure KillSwitchState where
  triggered : Bool := false
  triggered_at : Option Int := none
  triggered_reason : Option String := none
deriving DecidableEq, Repr

/-- `KillSwitch.trigger`: latch, unless already triggered; the broadcast of
the `KillSwitchEvent` is delivered to order managers as a separate
`deliverKill` event below. -/
def KillSwitchState.trigger (ks : KillSwitchState) (reason : String) (now : Int) :
    KillSwitchState :=
  if ks.triggered then ks
  else { triggered := true, triggered_at := some now, triggered_reason := some reason }

/-- `KillSwitch.reset`. -/
def KillSwitchState.reset (ks : KillSwitchState) : KillSwitchState :=
  if !ks.triggered then ks
  else { triggered := false, triggered_at := none, triggered_reason := none }

/-- `RiskSettings` (src/shared/config.py) -- the sub-settings object the
order manager reads sizing from. -/
structure RiskSettings where
  max_drawdown_pct : ℚ := 10
  max_position_size_pct : ℚ := 5
  daily_loss_limit_pct : ℚ := 3
deriving DecidableEq, Repr

/-- `TradingSettings` (src/shared/config.py), restricted to what the order
manager touches: it declares `risk` (among other sub-settings), but declares
neither `initial_balance` nor `standalone_mode`, and its pydantic config
uses `extra="ignore"`, so those attributes never exist on the instance and
reading them raises `AttributeError`.  The undeclared read the signal path
performs is modelled by the constantly-`none` accessor below. -/
structure TradingSettings where
  risk : RiskSettings := {}
deriving DecidableEq, Repr

/-- `settings.initial_balance` -- undeclared on `TradingSettings`, so the
attribute read raises `AttributeError` (modelled as `none`). -/
def TradingSettings.initial_balance (_ : TradingSettings) : Option ℚ :=
  none

/-- `OrderManager` state: the kill latch and the pending-order map (order
ids modelled as externally supplied naturals). -/
structure OrderManagerState where
  killed : Bool := false
  pending_orders : List (Nat × Order) := []
deriving DecidableEq, Repr

/-- `OrderManager._signal_to_order`: side from the action, then
`balance = settings.initial_balance` (order_manager.py:205) -- a read of an
attribute `TradingSettings` does not declare, so it raises `AttributeError`
before any `Order` is constructed (modelled as `none`).  The sizing and the
MARKET-order construction below the failing read are translated for
completeness but are unreachable. -/
def signal_to_order (st : TradingSettings) (signal : Signal) : Option Order :=
  let side :=
    if signal.action = SignalAction.enterLong ∨ signal.action = SignalAction.exitShort
    then OrderSide.buy else OrderSide.sell
  match st.initial_balance with
  | none => none
  | some balance =>
      let position_size_pct := st.risk.max_position_size_pct / 100
      let notional := balance * position_size_pct
      let quantity := notional / signal.price_at_signal
      some
        { market := signal.market
          mode := signal.mode
          symbol := signal.symbol
          side := side
          order_type := OrderType.market
          quantity := quantity
          strategy_name := signal.strategy_name }

/-- `OrderManager._on_kill_switch`: set the latch and request best-effort
cancellation of every pending order (returned as the list handed to the
broker port). -/
def om_on_kill_switch (m : OrderManagerState) : OrderManagerState × List Order :=
  ({ m with killed := true }, m.pending_orders.map Prod.snd)

/-- `OrderManager._process_signal`: drop the signal while killed; otherwise
attempt to build the order -- `_signal_to_order` raises `AttributeError` at
the `settings.initial_balance` read, so no order exists and the exception
propagates to the caller (the `Bool` component) -- and only on success
persist it (`_persist_order`'s own undeclared `settings.standalone_mode`
read sits on that unreachable path), submit it through the broker port
(abstracted as `submit`, `none` modelling a submit exception) and track it.
The middle component is the list of orders created. -/
def om_process_signal (st : TradingSettings) (submit : Order → Option Order)
    (m : OrderManagerState) (signal : Signal) (next_id : Nat) :
    OrderManagerState × List Order × Bool :=
  if m.killed then (m, [], false)
  else
    match signal_to_order st signal with
    | none => (m, [], true)
    | some order =>
        match submit order with
        | some updated =>
            ({ m with pending_orders := m.pending_orders ++ [(next_id, updated)] },
              [order], false)
        | none => (m, [order], false)

/-- An event of the combined kill-switch / order-manager system: a trigger or
reset on the kill switch, delivery of the broadcast kill event to the
manager, or a signal submitted to the manager. -/
inductive SysEvent
  | trigger (reason : String) (now : Int)
  | reset
  | deliverKill
  | signal (s : Signal)

/-- Combined system state: the kill switch, the order manager, the log of
orders the manager has created, and the count of exceptions its signal
handling has raised. -/
structure SysState where
  ks : KillSwitchState
  mgr : OrderManagerState
  created : List Order
  errors : Nat
deriving Repr

/-- One step of the combined system. -/
def sys_step (st : TradingSettings) (submit : Order → Option Order) (s : SysState) :
    SysEvent → SysState
  | .trigger reason now => { s with ks := s.ks.trigger reason now }
  | .reset => { s with ks := s.ks.reset }
  | .deliverKill => { s with mgr := (om_on_kill_switch s.mgr).1 }
  | .signal sig =>
      let mo := om_process_signal st submit s.mgr sig s.created.length
      { s with
        mgr := mo.1
        created := s.created ++ mo.2.1
        errors := s.errors + (if mo.2.2 then 1 else 0) }

/-- Run the combined system over a list of events. -/
def sys_run (st : TradingSettings) (submit : Order → Option Order) (s : SysState)
    (events : List SysEvent) : SysState :=
  events.foldl (sys_step st submit) s

/-- The initial combined state: armed kill switch, fresh manager. -/
def sys_init : SysState :=
  ⟨{}, {}, [], 0⟩

/-! ## Position tracker
(src/vibetrading_V1/services/risk_engine/position_tracker.py) -/

/-- `PositionTracker` state. -/
structure TrackerState where
  positions : List (String × Position) := []
  last_prices : List (String × ℚ) := []
deriving Repr

/-- `PositionTracker._calculate_realized_pnl` (full close: uses the open
position quantity). -/
def calculate_realized_pnl (position : Position) (fill : Fill) : ℚ :=
  if position.side = OrderSide.buy then
    (fill.price - position.avg_entry_price) * position.quantity
  else
    (position.avg_entry_price - fill.price) * position.quantity

/-- `PositionTracker._calculate_realized_pnl_partial` (partial close: uses
the fill quantity). -/
def calculate_realized_pnl_partial (position : Position) (fill : Fill) : ℚ :=
  if position.side = OrderSide.buy then
    (fill.price - position.avg_entry_price) * fill.quantity
  else
    (position.avg_entry_price - fill.price) * fill.quantity

/-- `PositionTracker._process_fill`.  Returns the new tracker state and the
final value of the `Position` object the fill touched (for a full close the
object is mutated -- realized P&L added, quantity zeroed, `closed_at` set --
and then removed from the map).  `fill.metadata.get("strategy_name",
"unknown")` is modelled as the default, metadata being unmodelled. -/
def tracker_process_fill (market : Market) (mode : TradingMode) (ts : TrackerState)
    (fill : Fill) (now : Int) : TrackerState × Position :=
  match dget ts.positions fill.symbol with
  | none =>
      let position : Position :=
        { market := market
          mode := mode
          symbol := fill.symbol
          side := fill.side
          quantity := fill.quantity
          avg_entry_price := fill.price
          current_price := some fill.price
          strategy_name := "unknown"
          opened_at := now }
      ({ ts with positions := dset ts.positions fill.symbol position }, position)
  | some existing =>
      if fill.side = existing.side then
        let total_cost := existing.quantity * existing.avg_entry_price +
          fill.quantity * fill.price
        let new_quantity := existing.quantity + fill.quantity
        let existing := { existing with
          avg_entry_price := total_cost / new_quantity
          quantity := new_quantity
          current_price := some fill.price
          updated_at := now }
        ({ ts with positions := dset ts.positions fill.symbol existing }, existing)
      else
        if fill.quantity ≥ existing.quantity then
          let realized_pnl := calculate_realized_pnl existing fill
          let existing := { existing with
            realized_pnl := existing.realized_pnl + realized_pnl
            quantity := 0
            closed_at := some now
            current_price := some fill.price
            updated_at := now }
          ({ ts with positions := ddel ts.positions fill.symbol }, existing)
        else
          let realized_pnl := calculate_realized_pnl_partial existing fill
          let existing := { existing with
            realized_pnl := existing.realized_pnl + realized_pnl
            quantity := existing.quantity - fill.quantity
            current_price := some fill.price
            updated_at := now }
          ({ ts with positions := dset ts.positions fill.symbol existing }, existing)

/-! ## Specification-side definitions

Definitions following the specification's wording, for comparison with the
embedded code. -/

/-- The claim's Sharpe formula on the recorded equity curve, amended to the
code's `n = 1` behaviour: per-bar returns, zero when there are no returns or
the standard deviation is not positive, `mean × √252` when there is exactly
one return (the code substitutes 1 for the standard deviation), and
`mean × √252 / stdev` otherwise. -/
def sharpe_spec (stdevFn : List ℚ → ℚ) (equity_curve : List (Int × ℚ)) : ℚ :=
  let r := (equity_curve.zip (equity_curve.drop 1)).map
    (fun pc => (pc.2.2 - pc.1.2) / pc.1.2)
  if r.length = 0 then 0
  else if r.length = 1 then r.sum / r.length * decimal_sqrt_252
  else if stdevFn r > 0 then r.sum / r.length * decimal_sqrt_252 / stdevFn r
  else 0

/-- The claim's profit-factor formula: winning P&L over the absolute losing
P&L, the divisor floor-clamped to `0.01`. -/
def profit_factor_spec (trades : List TradeRecord) : ℚ :=
  let gross_profit := ((trades.filter (fun t => t.pnl > 0)).map TradeRecord.pnl).sum
  let gross_loss := |((trades.filter (fun t => t.pnl ≤ 0)).map TradeRecord.pnl).sum|
  gross_profit / max gross_loss (1 / 100)

/-- The claim's position sign: `+1` for a long, `-1` for a short. -/
def side_sign : OrderSide → ℚ
  | .buy => 1
  | .sell => -1

/-! ## Concrete fixtures for witnesses and counterexamples -/

/-- A strategy that never emits a signal. -/
def nullStrategy : Strategy Unit :=
  ⟨(), fun st _ _ => ([], st), id⟩

/-- A strategy counting bars: enter long on the first bar, exit long on the
second, then stay silent. -/
def twoBarStrategy : Strategy Nat where
  init := 0
  on_candle := fun n c _ =>
    (if n = 0 then
        [⟨c.market, c.timestamp, c.symbol, .enterLong, 1, "s", c.close, .backtest⟩]
      else if n = 1 then
        [⟨c.market, c.timestamp, c.symbol, .exitLong, 1, "s", c.close, .backtest⟩]
      else [], n + 1)
  reset := fun _ => 0

/-- A flat crypto candle at the given symbol, time and close. -/
def mkCandle (sym : String) (t : Int) (c : ℚ) : Candle :=
  ⟨.crypto, sym, t, c, c, c, c, 1⟩

/-- A small crypto backtest configuration with the default capital and seed. -/
def cfgEx : BacktestConfig :=
  { market := .crypto, strategy_name := "s", symbols := ["BTC"],
    start_date := 0, end_date := 10 }

/-- Engine fixture: two-bar round trip under the midpoint PRNG. -/
def engineTwoBar : BacktestEngine Nat Unit :=
  { R := midRandom, settings := {}, strat := twoBarStrategy, config := cfgEx,
    stdev := fun _ => 0 }

/-- Engine fixture: no signals at all. -/
def engineNull : BacktestEngine Unit Unit :=
  { R := midRandom, settings := {}, strat := nullStrategy, config := cfgEx,
    stdev := fun _ => 0 }

/-- An empty module-global fill state (no cached simulator). -/
def glob0 : FillGlobal Unit :=
  ⟨none, ()⟩

/-- The walk-forward configuration of the claim's concrete scenario:
2022-01-01 and 2024-01-01 are 730 days apart, so day numbers 0 and 730. -/
def wfCfgEx : WalkForwardConfig :=
  { market := .us, strategy_name := "s", symbols := ["SPY"],
    start_date := 0, end_date := 730 }

/-- A signal fixture for the order-manager claims. -/
def sigEx : Signal :=
  ⟨.crypto, 0, "BTC", .enterLong, 1, "s", 100, .paper⟩

/-- A broker port that accepts every order unchanged. -/
def submitOk : Order → Option Order :=
  fun o => some o

/-- A market buy order fixture. -/
def ordW : Order :=
  { market := .crypto, mode := .paper, symbol := "BTC", side := .buy,
    order_type := .market, quantity := 1 / 10, strategy_name := "s" }

/-- An open long position fixture for the position-tracker claim. -/
def posW : Position :=
  { market := .crypto, mode := .paper, symbol := "BTC", side := .buy,
    quantity := 2, avg_entry_price := 10, strategy_name := "s", opened_at := 0 }

/-- An opposite-side fill exceeding the open quantity. -/
def fillW : Fill :=
  { timestamp := 1, market := .crypto, mode := .paper, symbol := "BTC",
    side := .sell, quantity := 3, price := 15 }

/-- A completed round-trip trade fixture (entry 100.1, exit 109.89,
quantity 100, pnl 979). -/
def tradeW7 : TradeRecord :=
  ⟨"BTC", "buy", 1, 2, 1001/10, 10989/100, 100, 979, 890/91, 1⟩

/-- An engine state with one completed trade and a two-point equity curve. -/
def stateW7 : EngineState Unit :=
  ⟨⟨100000, []⟩, ⟨none, [], []⟩, some 2, [], [tradeW7],
    [(1, 100000), (2, 100979)], 100979, 0⟩

/-- A winning trade fixture (pnl 5). -/
def tradeP : TradeRecord := ⟨"BTC", "buy", 1, 2, 100, 105, 1, 5, 5, 1⟩

/-- A losing trade fixture (pnl -2). -/
def tradeN : TradeRecord := ⟨"BTC", "buy", 1, 2, 100, 98, 1, -2, -2, 1⟩

/-- An engine state holding one winner and one loser. -/
def stateW8 : EngineState Unit :=
  ⟨⟨100000, []⟩, ⟨none, [], []⟩, some 2, [], [tradeP, tradeN], [], 100000, 0⟩

/-- A strategy entering long on bar one, then exiting and re-entering on bar
two (the re-entered position is force-closed at stream end with zero P&L). -/
def exitReenterStrategy : Strategy Nat where
  init := 0
  on_candle := fun n c _ =>
    (if n = 0 then
        [⟨c.market, c.timestamp, c.symbol, .enterLong, 1, "s", c.close, .backtest⟩]
      else if n = 1 then
        [⟨c.market, c.timestamp, c.symbol, .exitLong, 1, "s", c.close, .backtest⟩,
         ⟨c.market, c.timestamp, c.symbol, .enterLong, 1, "s", c.close, .backtest⟩]
      else [], n + 1)
  reset := fun _ => 0

/-- Engine fixture for the exit-and-re-enter scenario. -/
def engineExitReenter : BacktestEngine Nat Unit :=
  { R := midRandom, settings := {}, strat := exitReenterStrategy, config := cfgEx,
    stdev := fun _ => 0 }

/-! ## Theorems -/

/-- The base price passed to the slippage calculation is nonnegative when the
market price and any limit price are nonnegative. -/
lemma fill_base_price_nonneg (order : Order) (market_price : ℚ)
    (hmp : 0 ≤ market_price) (hop : ∀ p ∈ order.price, 0 ≤ p) :
    0 ≤ fill_base_price order market_price := by
  unfold fill_base_price
  split
  · exact hmp
  · cases hp : order.price with
    | none => exact hmp
    | some p =>
        have hp0 : 0 ≤ p := hop p (by simp [hp])
        by_cases hl : order.order_type = OrderType.limit ∧ p ≠ 0
        · by_cases hb : order.side = OrderSide.buy
          · simpa [hl, hb] using le_min hp0 hmp
          · simp only [if_pos hl, if_neg hb]
            exact le_trans hp0 (le_max_left _ _)
        · simp [hl, hmp]

/-- Claim C2 (confirmed): for every order and reference price (prices
nonnegative, slippage setting nonnegative, any PRNG draw), `simulate_fill`
returns an executed price at or above the base price for a buy and at or
below it for a sell, and the emitted fill has `latency_ms ≥ 1` and
`slippage_bps ≥ 0`. -/
theorem simulate_fill_adverse {σ : Type} (R : RandomLib σ) (sim : FillSimulator)
    (order : Order) (market_price : ℚ) (timestamp : Option Int) (g : σ)
    (hbps : 0 ≤ sim.get_slippage_bps order.market)
    (hmp : 0 ≤ market_price) (hop : ∀ p ∈ order.price, 0 ≤ p) :
    (order.side = OrderSide.buy →
      fill_base_price order market_price ≤
        (sim.simulate_fill R order market_price timestamp g).1.executed_price) ∧
    (order.side = OrderSide.sell →
      (sim.simulate_fill R order market_price timestamp g).1.executed_price ≤
        fill_base_price order market_price) ∧
    1 ≤ (sim.simulate_fill R order market_price timestamp g).1.fill.latency_ms ∧
    0 ≤ (sim.simulate_fill R order market_price timestamp g).1.fill.slippage_bps := by
  have hbase : 0 ≤ fill_base_price order market_price :=
    fill_base_price_nonneg order market_price hmp hop
  obtain ⟨hv1, hv2⟩ := R.uniform_mem g (1 / 2) (3 / 2) (by norm_num)
  have hvar : 0 ≤ (R.uniform g (1 / 2) (3 / 2)).1 := by linarith
  have hbpsq : (0 : ℚ) ≤ (sim.get_slippage_bps order.market : ℚ) := by exact_mod_cast hbps
  have hadj : 0 ≤ fill_base_price order market_price *
      ((sim.get_slippage_bps order.market : ℚ) * (R.uniform g (1 / 2) (3 / 2)).1 * 1) / 10000 := by
    apply div_nonneg _ (by norm_num)
    exact mul_nonneg hbase (mul_nonneg (mul_nonneg hbpsq hvar) (by norm_num))
  refine ⟨?_, ?_, ?_, ?_⟩
  · intro hside
    simp only [FillSimulator.simulate_fill, FillSimulator.calculate_slippage, hside, if_true]
    linarith
  · intro hside
    simp only [FillSimulator.simulate_fill, FillSimulator.calculate_slippage, hside,
      reduceCtorEq, if_false]
    linarith
  · simp only [FillSimulator.simulate_fill, FillSimulator.calculate_latency_ms]
    exact le_max_right _ _
  · simp only [FillSimulator.simulate_fill, FillSimulator.calculate_slippage]
    exact mul_nonneg (mul_nonneg hbpsq hvar) (by norm_num)

/-- Witness for C2: the default simulator under the midpoint PRNG fills a
market buy at 50000 at or above the base price; the hypotheses hold at this
input. -/
theorem simulate_fill_adverse_witness :
    (0 : Int) ≤ (FillSimulator.mk {} none none).get_slippage_bps ordW.market ∧
    fill_base_price ordW 50000 ≤
      ((FillSimulator.mk {} none none).simulate_fill midRandom ordW 50000 none ()).1.executed_price := by
  constructor
  · decide
  · exact (simulate_fill_adverse midRandom (FillSimulator.mk {} none none) ordW 50000 none ()
      (by decide) (by norm_num) (by simp [ordW])).1 rfl

/-- Claim C4 (amended): the sandbox accepts a strategy file iff every import's
full dotted module name matches no deny-list entry and matches some
allow-list entry (matching = equality or extension past a dot); a file that
imports `requests` is rejected and one with only
`vibetrading_V2.strategy.bundle` and `math` is accepted. -/
theorem sandbox_policy :
    (∀ (imports allowed denied : List String),
      validate_strategy_imports imports allowed denied = SandboxOutcome.accepted ↔
        ∀ m ∈ imports, matches_pfx m denied = false ∧ matches_pfx m allowed = true) ∧
    validate_strategy_imports ["requests"] DEFAULT_ALLOWED_IMPORTS DEFAULT_DENIED_IMPORTS
      = SandboxOutcome.importViolation ∧
    validate_strategy_imports ["vibetrading_V2.strategy.bundle", "math"]
      DEFAULT_ALLOWED_IMPORTS DEFAULT_DENIED_IMPORTS = SandboxOutcome.accepted := by
  refine ⟨?_, by decide, by decide⟩
  intro imports allowed denied
  simp only [validate_strategy_imports]
  constructor
  · intro h m hm
    by_cases hcond : ((imports.filter (fun m => matches_pfx m denied)).isEmpty &&
        (imports.filter (fun m => !matches_pfx m denied && !matches_pfx m allowed)).isEmpty) = true
    · simp only [List.isEmpty_iff, Bool.and_eq_true, List.filter_eq_nil_iff] at hcond
      obtain ⟨h1, h2⟩ := hcond
      have hd : matches_pfx m denied = false := by
        simpa using h1 m hm
      have ha := h2 m hm
      refine ⟨hd, ?_⟩
      rcases Bool.eq_false_or_eq_true (matches_pfx m allowed) with ht | hf
      · exact ht
      · exact absurd (by simp [hd, hf]) ha
    · rw [if_neg hcond] at h
      exact absurd h (by simp)
  · intro h
    have hcond : ((imports.filter (fun m => matches_pfx m denied)).isEmpty &&
        (imports.filter (fun m => !matches_pfx m denied && !matches_pfx m allowed)).isEmpty) = true := by
      simp only [List.isEmpty_iff, Bool.and_eq_true, List.filter_eq_nil_iff]
      constructor
      · intro m hm
        simp [(h m hm).1]
      · intro m hm
        simp [(h m hm).2]
    rw [if_pos hcond]

/-- Counterexample for C4 as stated: the claim's acceptance example — a file
whose only imports are `vibetrading_core.strategy.bundle` and `math` — is
rejected by the code (its module is on no allow-list entry), even though its
root module matches no deny-list entry; and the accepted file that imports
`vibetrading_V2.strategy.bundle` has a root module matching no allow-list
entry, refuting the claim's root-module reading of the policy. -/
theorem sandbox_counterexample :
    validate_strategy_imports ["vibetrading_core.strategy.bundle", "math"]
        DEFAULT_ALLOWED_IMPORTS DEFAULT_DENIED_IMPORTS = SandboxOutcome.importViolation ∧
    matches_pfx (root_module "vibetrading_core.strategy.bundle") DEFAULT_DENIED_IMPORTS
      = false ∧
    validate_strategy_imports ["vibetrading_V2.strategy.bundle"] DEFAULT_ALLOWED_IMPORTS
        DEFAULT_DENIED_IMPORTS = SandboxOutcome.accepted ∧
    matches_pfx (root_module "vibetrading_V2.strategy.bundle") DEFAULT_ALLOWED_IMPORTS
      = false := by
  decide

/-- Every window emitted by the walk-forward loop satisfies the window
equations and ends inside the configured range. -/
lemma gen_loop_mem (cfg : WalkForwardConfig) :
    ∀ (fuel : Nat) (s : Int) (wid : Nat), ∀ w ∈ generate_windows_loop cfg fuel s wid,
      w.in_sample_end = w.in_sample_start + cfg.in_sample_days ∧
      w.out_of_sample_start = w.in_sample_end ∧
      w.out_of_sample_end = w.out_of_sample_start + cfg.out_of_sample_days ∧
      w.out_of_sample_end ≤ cfg.end_date := by
  intro fuel
  induction fuel with
  | zero => intro s wid w hw; simp [generate_windows_loop] at hw
  | succ n ih =>
      intro s wid w hw
      simp only [generate_windows_loop] at hw
      by_cases hend : s + cfg.in_sample_days + cfg.out_of_sample_days > cfg.end_date
      · rw [if_pos hend] at hw
        simp at hw
      · rw [if_neg hend] at hw
        rcases List.mem_cons.mp hw with rfl | htail
        · exact ⟨rfl, rfl, rfl, not_lt.mp hend⟩
        · exact ih _ _ w htail

/-- The i-th window emitted by the walk-forward loop starts at the loop's
starting in-sample date advanced by i steps, with sequential window ids. -/
lemma gen_loop_get (cfg : WalkForwardConfig) :
    ∀ (fuel : Nat) (s : Int) (wid : Nat) (i : Nat) (w : WalkForwardWindow),
      (generate_windows_loop cfg fuel s wid).get? i = some w →
      w.in_sample_start = s + i * cfg.step_days ∧ w.window_id = wid + i := by
  intro fuel
  induction fuel with
  | zero => intro s wid i w hw; simp [generate_windows_loop] at hw
  | succ n ih =>
      intro s wid i w hw
      simp only [generate_windows_loop] at hw
      by_cases hend : s + cfg.in_sample_days + cfg.out_of_sample_days > cfg.end_date
      · rw [if_pos hend] at hw
        simp at hw
      · rw [if_neg hend] at hw
        cases i with
        | zero =>
            simp only [List.get?_cons_zero, Option.some.injEq] at hw
            subst hw
            simp
        | succ j =>
            have := ih (s + cfg.step_days) (wid + 1) j w (by simpa using hw)
            refine ⟨?_, ?_⟩
            · rw [this.1]
              push_cast
              ring
            · rw [this.2]
              omega

/-- Claim C6 (confirmed): walk-forward generation starts at `start_date`,
satisfies `is_end = is_start + is_days`, `oos_start = is_end`,
`oos_end = oos_start + oos_days`, advances `is_start` by `step_days` per
window, emits no window with `oos_end > end_date`, and produces exactly 7
windows for the 2022-01-01..2024-01-01 / 252 / 63 / 63 scenario. -/
theorem walk_forward_windows :
    (∀ cfg : WalkForwardConfig, ∀ w ∈ generate_windows cfg,
      w.in_sample_end = w.in_sample_start + cfg.in_sample_days ∧
      w.out_of_sample_start = w.in_sample_end ∧
      w.out_of_sample_end = w.out_of_sample_start + cfg.out_of_sample_days ∧
      w.out_of_sample_end ≤ cfg.end_date) ∧
    (∀ (cfg : WalkForwardConfig) (i : Nat) (h : i < (generate_windows cfg).length),
      ((generate_windows cfg).get ⟨i, h⟩).in_sample_start
          = cfg.start_date + i * cfg.step_days ∧
      ((generate_windows cfg).get ⟨i, h⟩).window_id = i) ∧
    (generate_windows wfCfgEx).length = 7 := by
  refine ⟨?_, ?_, by decide⟩
  · intro cfg w hw
    exact gen_loop_mem cfg _ _ _ w hw
  · intro cfg i h
    have hw : (generate_windows cfg).get? i = some ((generate_windows cfg).get ⟨i, h⟩) :=
      List.get?_eq_get h
    simpa using gen_loop_get cfg _ _ _ i _ hw

/-- Witness for C6: the fourth window of the concrete scenario starts at day
189 = 3 x 63. -/
theorem walk_forward_windows_witness :
    ((generate_windows wfCfgEx).get ⟨3, by decide⟩).in_sample_start = 189 := by
  have h := (walk_forward_windows.2.1 wfCfgEx 3 (by decide)).1
  rw [h]
  decide

/-- A key absent from a dict has no binding. -/
lemma dget_eq_none_of_not_mem {β : Type} (d : List (String × β)) (k : String)
    (h : k ∉ d.map Prod.fst) : dget d k = none := by
  induction d with
  | nil => rfl
  | cons hd tl ih =>
      obtain ⟨k0, v0⟩ := hd
      simp only [List.map_cons, List.mem_cons] at h
      push_neg at h
      simp only [dget, if_neg (Ne.symm h.1)]
      exact ih h.2

/-- Deleting a key from a dict with no duplicate keys removes its binding. -/
lemma dget_ddel_self {β : Type} (d : List (String × β)) (k : String)
    (h : (d.map Prod.fst).Nodup) : dget (ddel d k) k = none := by
  induction d with
  | nil => rfl
  | cons hd tl ih =>
      obtain ⟨k0, v0⟩ := hd
      simp only [List.map_cons, List.nodup_cons] at h
      by_cases hk : k0 = k
      · subst hk
        simp only [ddel, if_pos rfl]
        exact dget_eq_none_of_not_mem tl k0 h.1
      · rw [show ddel ((k0, v0) :: tl) k = (k0, v0) :: ddel tl k from by simp [ddel, hk]]
        rw [show dget ((k0, v0) :: ddel tl k) k = dget (ddel tl k) k from by simp [dget, hk]]
        exact ih h.2

/-- Claim C10 (confirmed): a fill opposite to an open position with at least
the open quantity closes the position — it is removed from the tracked map
(no reversed position remains for the excess quantity) — and the realized
P&L added to the position object is `sign x (fill_price - avg_entry) x
open_qty`, computed on the open quantity only; the closed object carries
`quantity = 0` and `closed_at` set. -/
theorem tracker_opposite_full_close (market : Market) (mode : TradingMode)
    (ts : TrackerState) (fill : Fill) (now : Int) (pos : Position)
    (hnodup : (ts.positions.map Prod.fst).Nodup)
    (hpos : dget ts.positions fill.symbol = some pos)
    (hside : fill.side ≠ pos.side)
    (hqty : pos.quantity ≤ fill.quantity) :
    dget (tracker_process_fill market mode ts fill now).1.positions fill.symbol = none ∧
    (tracker_process_fill market mode ts fill now).2.realized_pnl
      = pos.realized_pnl
        + side_sign pos.side * (fill.price - pos.avg_entry_price) * pos.quantity ∧
    (tracker_process_fill market mode ts fill now).2.quantity = 0 ∧
    (tracker_process_fill market mode ts fill now).2.closed_at = some now := by
  simp only [tracker_process_fill, hpos, if_neg hside, if_pos hqty]
  refine ⟨dget_ddel_self ts.positions fill.symbol hnodup, ?_, by simp, by simp⟩
  cases hs : pos.side with
  | buy => simp [calculate_realized_pnl, hs, side_sign]
  | sell => simp [calculate_realized_pnl, hs, side_sign]

/-- Witness for C10: a sell fill of quantity 3 against a long of quantity 2
at entry 10, filled at 15, removes the position and realizes (15-10)x2 = 10. -/
theorem tracker_opposite_full_close_witness :
    dget (tracker_process_fill Market.crypto TradingMode.paper
        ⟨[("BTC", posW)], []⟩ fillW 1).1.positions "BTC" = none ∧
    (tracker_process_fill Market.crypto TradingMode.paper
        ⟨[("BTC", posW)], []⟩ fillW 1).2.realized_pnl = 10 := by
  have h := tracker_opposite_full_close Market.crypto TradingMode.paper
    ⟨[("BTC", posW)], []⟩ fillW 1 posW (by simp) (by simp [dget, fillW])
    (by decide) (by norm_num [posW, fillW])
  refine ⟨h.1, ?_⟩
  rw [h.2.1]
  norm_num [posW, fillW, side_sign]

/-- Claim C5 (amended): once the order manager's kill latch is set (by the
delivered kill-switch broadcast), every subsequent signal creates no order
and the latch stays set forever -- no event resets it; `KillSwitch.reset`
returns the kill switch itself to armed but leaves the order manager
untouched; and even with the latch unset a signal creates no order -- the
non-killed path raises `AttributeError` at the undeclared
`settings.initial_balance` read before any order is constructed. -/
theorem kill_switch_latch (st : TradingSettings) (submit : Order → Option Order) :
    (∀ (s : SysState) (events : List SysEvent), s.mgr.killed = true →
      (sys_run st submit s events).created = s.created ∧
      (sys_run st submit s events).mgr.killed = true) ∧
    (∀ s : SysState, (sys_step st submit s SysEvent.reset).mgr = s.mgr ∧
      (sys_step st submit s SysEvent.reset).ks.triggered = false) ∧
    (∀ (s : SysState) (sig : Signal), s.mgr.killed = false →
      (sys_step st submit s (SysEvent.signal sig)).created = s.created ∧
      (sys_step st submit s (SysEvent.signal sig)).errors = s.errors + 1) := by
  refine ⟨?_, ?_, ?_⟩
  · intro s events
    induction events generalizing s with
    | nil => intro h; exact ⟨rfl, h⟩
    | cons e es ih =>
        intro h
        have hstep : (sys_step st submit s e).mgr.killed = true ∧
            (sys_step st submit s e).created = s.created := by
          cases e with
          | trigger r n => exact ⟨h, rfl⟩
          | reset => exact ⟨h, rfl⟩
          | deliverKill => simp [sys_step, om_on_kill_switch]
          | signal sig => simp [sys_step, om_process_signal, h]
        obtain ⟨hk, hc⟩ := hstep
        have hrest := ih (sys_step st submit s e) hk
        rw [show sys_run st submit s (e :: es)
            = sys_run st submit (sys_step st submit s e) es from rfl]
        exact ⟨hrest.1.trans hc, hrest.2⟩
  · intro s
    refine ⟨rfl, ?_⟩
    by_cases h : s.ks.triggered <;> simp [sys_step, KillSwitchState.reset, h]
  · intro s sig h
    constructor <;>
      simp [sys_step, om_process_signal, h, signal_to_order,
        TradingSettings.initial_balance]

/-- Witness for C5: a killed manager drops a concrete signal -- no order is
created. -/
theorem kill_switch_latch_witness :
    (sys_run {} submitOk ⟨{}, ⟨true, []⟩, [], 0⟩ [SysEvent.signal sigEx]).created = [] := by
  have h := (kill_switch_latch {} submitOk).1 ⟨{}, ⟨true, []⟩, [], 0⟩
    [SysEvent.signal sigEx] rfl
  simpa using h.1

/-- Counterexample for C5 as stated: after trigger, delivery to the manager
and a manual `KillSwitch.reset` (the kill switch is armed again), a
subsequent signal still produces no order; and even a fresh, never-killed
system produces no order from the same signal -- its signal path raises
`AttributeError` at the undeclared `settings.initial_balance` read -- so
"after a manual reset new signals may again produce orders" fails. -/
theorem kill_switch_reset_counterexample :
    (sys_run {} submitOk sys_init
        [SysEvent.trigger "drawdown" 0, SysEvent.deliverKill, SysEvent.reset,
         SysEvent.signal sigEx]).created = [] ∧
    (sys_run {} submitOk sys_init
        [SysEvent.trigger "drawdown" 0, SysEvent.deliverKill, SysEvent.reset,
         SysEvent.signal sigEx]).ks.triggered = false ∧
    (sys_run {} submitOk sys_init [SysEvent.signal sigEx]).created = [] ∧
    (sys_run {} submitOk sys_init [SysEvent.signal sigEx]).errors = 1 := by
  refine ⟨?_, ?_, ?_, ?_⟩ <;>
    simp [sys_run, sys_step, sys_init, om_process_signal, om_on_kill_switch,
      KillSwitchState.trigger, KillSwitchState.reset, submitOk, signal_to_order,
      TradingSettings.initial_balance]

/-- Folding trade P&L addition equals adding the P&L sum. -/
lemma foldl_add_pnl (l : List TradeRecord) (init : ℚ) :
    l.foldl (fun b t => b + t.pnl) init = init + (l.map TradeRecord.pnl).sum := by
  induction l generalizing init with
  | nil => simp
  | cons t ts ih =>
      simp only [List.foldl_cons, List.map_cons, List.sum_cons, ih]
      ring

/-- The zero-skipping unrealized-P&L fold equals adding the plain sum
(skipped values are zero). -/
lemma foldl_skip_zero (l : List Position) (init : ℚ) :
    l.foldl (fun b p => if p.unrealized_pnl ≠ 0 then b + p.unrealized_pnl else b) init
      = init + (l.map Position.unrealized_pnl).sum := by
  induction l generalizing init with
  | nil => simp
  | cons p ps ih =>
      simp only [List.foldl_cons, List.map_cons, List.sum_cons]
      by_cases h : p.unrealized_pnl = 0
      · rw [if_neg (by simp [h]), ih, h]
        ring
      · rw [if_pos h, ih]
        ring

/-- `_calculate_equity` computes initial capital plus realized plus
unrealized P&L. -/
lemma calculate_equity_eq (cfg : BacktestConfig) {α : Type} (s : EngineState α) :
    calculate_equity cfg s
      = cfg.initial_capital + (s.trades.map TradeRecord.pnl).sum
        + ((dvalues s.positions).map Position.unrealized_pnl).sum := by
  simp only [calculate_equity]
  rw [foldl_add_pnl, foldl_skip_zero]

/-- The equity entry the post-steps append equals the accounting equation
evaluated at the state they leave behind. -/
lemma process_candle_post_getLast {α σ : Type} (E : BacktestEngine α σ)
    (s : EngineState α) (c : Candle) :
    (process_candle_post E s c).equity_curve.getLast?
      = some (c.timestamp,
          E.config.initial_capital
          + ((process_candle_post E s c).trades.map TradeRecord.pnl).sum
          + ((dvalues (process_candle_post E s c).positions).map
              Position.unrealized_pnl).sum) := by
  simp only [process_candle_post]
  rw [List.getLast?_concat, calculate_equity_eq]

/-- The equity entry `_process_candle` appends equals the accounting
equation evaluated at the state it leaves behind. -/
lemma process_candle_getLast {α σ : Type} (E : BacktestEngine α σ)
    (sg : EngineState α × FillGlobal σ) (c : Candle) :
    ((process_candle E sg c).1).equity_curve.getLast?
      = some (c.timestamp,
          E.config.initial_capital
          + (((process_candle E sg c).1).trades.map TradeRecord.pnl).sum
          + ((dvalues ((process_candle E sg c).1).positions).map
              Position.unrealized_pnl).sum) := by
  simp only [process_candle]
  exact process_candle_post_getLast E _ c

/-- With at least one trade, the reported total return is computed from
`_calculate_equity` of the final state. -/
lemma calculate_results_total_return {α σ : Type} (E : BacktestEngine α σ)
    (s : EngineState α) (h : ¬s.trades.length = 0) :
    (calculate_results E s).total_return_pct
      = (calculate_equity E.config s - E.config.initial_capital)
          / E.config.initial_capital * 100 := by
  simp only [calculate_results, if_neg h]
  simp only [apply_ite BacktestResult.total_return_pct, ite_self]

/-- Claim C3 (confirmed): at every bar the equity value appended to the
equity curve equals `initial_capital + Σ pnl(recorded trades) + Σ
unrealized(tracked positions)` of the engine state at that bar (stated for
the last bar of an arbitrary prefix), and the final total return reported
by `run` is computed from the same equation at the post-run state. -/
theorem equity_curve_accounting :
    (∀ (α σ : Type) (E : BacktestEngine α σ) (glob : FillGlobal σ)
        (candles : List Candle) (c : Candle),
      (((candles ++ [c]).foldl (process_candle E)
          (initial_state E, glob)).1).equity_curve.getLast?
        = some (c.timestamp,
            E.config.initial_capital
            + ((((candles ++ [c]).foldl (process_candle E)
                (initial_state E, glob)).1).trades.map TradeRecord.pnl).sum
            + ((dvalues (((candles ++ [c]).foldl (process_candle E)
                (initial_state E, glob)).1).positions).map
                Position.unrealized_pnl).sum)) ∧
    (∀ (α σ : Type) (E : BacktestEngine α σ) (glob : FillGlobal σ)
        (candles : List Candle),
      (run E glob candles).total_return_pct
        = ((E.config.initial_capital
            + (((run_state E glob candles).1).trades.map TradeRecord.pnl).sum
            + ((dvalues ((run_state E glob candles).1).positions).map
                Position.unrealized_pnl).sum)
           - E.config.initial_capital) / E.config.initial_capital * 100) := by
  constructor
  · intro α σ E glob candles c
    rw [List.foldl_append, List.foldl_cons, List.foldl_nil]
    exact process_candle_getLast E _ c
  · intro α σ E glob candles
    show (calculate_results E (run_state E glob candles).1).total_return_pct = _
    set s := (run_state E glob candles).1 with hs
    by_cases h : s.trades.length = 0
    · have htr : s.trades = [] := List.length_eq_zero.mp h
      have hpos : dvalues s.positions = [] := by
        have : s.trades =
            (candles.foldl (process_candle E) (initial_state E, glob)).1.trades
              ++ (dvalues (candles.foldl (process_candle E)
                  (initial_state E, glob)).1.positions).map
                  (close_position_at_end (candles.foldl (process_candle E)
                    (initial_state E, glob)).1.current_time) := by
          rw [hs]
          rfl
        rw [htr] at this
        have hmap := (List.append_eq_nil.mp this.symm).2
        have hdv : dvalues (candles.foldl (process_candle E)
            (initial_state E, glob)).1.positions = [] := List.map_eq_nil_iff.mp hmap
        have hsp : s.positions =
            (candles.foldl (process_candle E) (initial_state E, glob)).1.positions := by
          rw [hs]
          rfl
        rw [hsp]
        exact hdv
      simp only [calculate_results, if_pos h, htr, hpos]
      simp
    · rw [calculate_results_total_return E s h, calculate_equity_eq]

/-- `_process_signal` never touches the equity curve. -/
lemma process_signal_equity {α σ : Type} (E : BacktestEngine α σ) (s : EngineState α)
    (g : FillGlobal σ) (sig : Signal) (c : Candle) :
    (process_signal E s g sig c).1.equity_curve = s.equity_curve := by
  simp only [process_signal]
  repeat' split
  all_goals rfl

/-- Processing a bar's signal list leaves the equity curve unchanged. -/
lemma process_signals_equity {α σ : Type} (E : BacktestEngine α σ) (c : Candle) :
    ∀ (sigs : List Signal) (p : EngineState α × FillGlobal σ),
      ((process_signals E sigs p c).1).equity_curve = p.1.equity_curve := by
  intro sigs
  induction sigs with
  | nil => intro p; rfl
  | cons sig rest ih =>
      intro p
      rw [show process_signals E (sig :: rest) p c
          = process_signals E rest (process_signal E p.1 p.2 sig c) c from rfl, ih]
      exact process_signal_equity E p.1 p.2 sig c

/-- `_process_candle` appends exactly one equity point, carrying the bar's
timestamp. -/
lemma process_candle_timestamps {α σ : Type} (E : BacktestEngine α σ)
    (sg : EngineState α × FillGlobal σ) (c : Candle) :
    (process_candle E sg c).1.equity_curve.map Prod.fst
      = sg.1.equity_curve.map Prod.fst ++ [c.timestamp] := by
  simp only [process_candle, process_candle_post, List.map_append]
  rw [process_signals_equity]
  simp only [process_candle_pre]
  cases h : dget
      ({ sg.1 with
          current_time := some c.timestamp
          broker := sg.1.broker.set_price c.symbol c.close } : EngineState α).positions
      c.symbol <;>
    simp [h]

/-- A run records one equity point per bar, in the order the bars arrive. -/
lemma fold_candles_timestamps {α σ : Type} (E : BacktestEngine α σ) :
    ∀ (cs : List Candle) (p : EngineState α × FillGlobal σ),
      ((cs.foldl (process_candle E) p).1).equity_curve.map Prod.fst
        = p.1.equity_curve.map Prod.fst ++ cs.map Candle.timestamp := by
  intro cs
  induction cs with
  | nil => intro p; simp
  | cons c rest ih =>
      intro p
      rw [List.foldl_cons, ih, process_candle_timestamps]
      simp

/-- `_calculate_results` reports the recorded equity curve unchanged. -/
lemma calculate_results_equity {α σ : Type} (E : BacktestEngine α σ)
    (s : EngineState α) : (calculate_results E s).equity_curve = s.equity_curve := by
  simp only [calculate_results]
  split
  · rfl
  · simp only [apply_ite BacktestResult.equity_curve, ite_self]

/-- Claim C9 (amended): the engine performs no timestamp-ordering check --
for every stream containing an out-of-order bar, `run` still returns a
normal result whose equity curve has one point per bar, timestamped in
stream order; no monotonic-timestamp error exists in the code. -/
theorem out_of_order_bars_processed (α σ : Type) (E : BacktestEngine α σ)
    (glob : FillGlobal σ) (candles pre post : List Candle) (c1 c2 : Candle)
    (hsplit : candles = pre ++ c1 :: c2 :: post)
    (horder : c2.timestamp < c1.timestamp) :
    (run E glob candles).equity_curve.map Prod.fst = candles.map Candle.timestamp := by
  show (calculate_results E (run_state E glob candles).1).equity_curve.map Prod.fst = _
  rw [calculate_results_equity]
  show ((candles.foldl (process_candle E) (initial_state E, glob)).1).equity_curve.map
      Prod.fst = _
  rw [fold_candles_timestamps]
  simp [initial_state]

/-- Witness for C9's amended statement: a stream with timestamps 5 then 3 is
fully processed. -/
theorem out_of_order_bars_processed_witness :
    (run engineNull glob0 [mkCandle "BTC" 5 100, mkCandle "BTC" 3 100]).equity_curve.map
        Prod.fst = [5, 3] := by
  have h := out_of_order_bars_processed Unit Unit engineNull glob0
    [mkCandle "BTC" 5 100, mkCandle "BTC" 3 100] [] [] (mkCandle "BTC" 5 100)
    (mkCandle "BTC" 3 100) rfl (by norm_num [mkCandle])
  rw [h]
  simp [mkCandle]

/-- Counterexample for C9 as stated: the out-of-order stream (timestamps 5
then 3) is not rejected -- the run completes and records both bars, the
out-of-order one included, in the equity curve. -/
theorem out_of_order_counterexample :
    (run engineNull glob0 [mkCandle "BTC" 5 100, mkCandle "BTC" 3 100]).equity_curve
      = [(5, 100000), (3, 100000)] := by
  norm_num [run, run_state, process_candle, process_candle_pre, process_signals,
    process_candle_post, initial_state, process_candle_sync,
    process_signal, open_position, close_position, get_fill_simulator, FillSimulator.init,
    FillSimulator.simulate_fill, FillSimulator.calculate_slippage,
    FillSimulator.calculate_latency_ms, FillSimulator.calculate_commission,
    FillSimulator.get_slippage_bps, FillSimulator.get_min_latency_ms,
    FillLogicSettings.get_slippage_bps, fill_base_price, calculate_equity,
    calculate_results, update_position_pnl, dget, dset, ddel, dvalues, midRandom,
    nullStrategy, cfgEx, engineNull, glob0, mkCandle, SigEngineState.update_position,
    BrokerStubState.set_price, close_all_positions, close_position_at_end,
    Order.remaining_quantity, OrderSide.value, pyInt, reduceCtorEq]

/-- `get_fill_simulator` with a seed ignores the cached module state: it
returns a fresh default simulator and re-seeds the PRNG. -/
lemma get_fill_simulator_some {σ : Type} (R : RandomLib σ) (st : FillLogicSettings)
    (x : Int) (glob : FillGlobal σ) :
    get_fill_simulator R st (some x) glob
      = (⟨st, none, none⟩, ⟨some ⟨st, none, none⟩, R.seed x⟩) := by
  simp [get_fill_simulator, FillSimulator.init]

/-- `_open_position` is independent of the module-global fill state: its
fill re-seeds the PRNG from the configured seed. -/
lemma open_position_glob {α σ : Type} (E : BacktestEngine α σ) (s : EngineState α)
    (g g' : FillGlobal σ) (sig : Signal) (c : Candle) (side : OrderSide) :
    open_position E s g sig c side = open_position E s g' sig c side := by
  simp only [open_position, get_fill_simulator_some]

/-- `_close_position` is likewise independent of the module-global fill
state. -/
lemma close_position_glob {α σ : Type} (E : BacktestEngine α σ) (s : EngineState α)
    (g g' : FillGlobal σ) (pos : Position) (c : Candle) :
    close_position E s g pos c = close_position E s g' pos c := by
  simp only [close_position, get_fill_simulator_some]

/-- The engine state produced by `_process_signal` does not depend on the
incoming module-global fill state. -/
lemma process_signal_fst_glob {α σ : Type} (E : BacktestEngine α σ) (s : EngineState α)
    (g g' : FillGlobal σ) (sig : Signal) (c : Candle) :
    (process_signal E s g sig c).1 = (process_signal E s g' sig c).1 := by
  simp only [process_signal]
  cases sig.action with
  | enterLong =>
      by_cases h : dget s.positions sig.symbol = none
      · simp only [if_pos h, open_position_glob E s g g' sig c]
      · simp only [if_neg h]
  | exitLong =>
      cases hdg : dget s.positions sig.symbol with
      | none => rfl
      | some p =>
          by_cases hb : p.side = OrderSide.buy
          · simp only [if_pos hb, close_position_glob E s g g' p c]
          · simp only [if_neg hb]
  | enterShort =>
      by_cases h : dget s.positions sig.symbol = none
      · simp only [if_pos h, open_position_glob E s g g' sig c]
      · simp only [if_neg h]
  | exitShort =>
      cases hdg : dget s.positions sig.symbol with
      | none => rfl
      | some p =>
          by_cases hb : p.side = OrderSide.sell
          · simp only [if_pos hb, close_position_glob E s g g' p c]
          · simp only [if_neg hb]

/-- The engine state after a bar's signal loop does not depend on the
incoming module-global fill state. -/
lemma process_signals_fst_glob {α σ : Type} (E : BacktestEngine α σ) (c : Candle) :
    ∀ (sigs : List Signal) (p q : EngineState α × FillGlobal σ), p.1 = q.1 →
      (process_signals E sigs p c).1 = (process_signals E sigs q c).1 := by
  intro sigs
  induction sigs with
  | nil => intro p q h; exact h
  | cons sig rest ih =>
      intro p q h
      rw [show process_signals E (sig :: rest) p c
          = process_signals E rest (process_signal E p.1 p.2 sig c) c from rfl,
        show process_signals E (sig :: rest) q c
          = process_signals E rest (process_signal E q.1 q.2 sig c) c from rfl]
      apply ih
      rw [h]
      exact process_signal_fst_glob E q.1 p.2 q.2 sig c

/-- The engine state after `_process_candle` does not depend on the incoming
module-global fill state. -/
lemma process_candle_fst_glob {α σ : Type} (E : BacktestEngine α σ) (c : Candle)
    (p q : EngineState α × FillGlobal σ) (h : p.1 = q.1) :
    (process_candle E p c).1 = (process_candle E q c).1 := by
  simp only [process_candle, h]
  exact congrArg (fun z => process_candle_post E z c)
    (process_signals_fst_glob E c _ _ _ rfl)

/-- The engine state after any candle sequence does not depend on the
incoming module-global fill state. -/
lemma fold_candles_fst_glob {α σ : Type} (E : BacktestEngine α σ) :
    ∀ (cs : List Candle) (p q : EngineState α × FillGlobal σ), p.1 = q.1 →
      ((cs.foldl (process_candle E) p).1) = ((cs.foldl (process_candle E) q).1) := by
  intro cs
  induction cs with
  | nil => intro p q h; exact h
  | cons c rest ih =>
      intro p q h
      rw [List.foldl_cons, List.foldl_cons]
      exact ih _ _ (process_candle_fst_glob E c p q h)

/-- Claim C1 (confirmed): `BacktestEngine.run` is a deterministic function
of (bars, strategy, config, seed) -- two runs from arbitrary (even
different) module-global fill/PRNG states return equal results: equal
trades, equal equity curve, and equal metrics, because every fill re-seeds
the PRNG from the configured seed and nothing else reads ambient state. -/
theorem backtest_run_deterministic (α σ : Type) (E : BacktestEngine α σ)
    (candles : List Candle) (glob glob' : FillGlobal σ) :
    run E glob candles = run E glob' candles := by
  show calculate_results E (close_all_positions
      ((candles.foldl (process_candle E) (initial_state E, glob)).1))
    = calculate_results E (close_all_positions
      ((candles.foldl (process_candle E) (initial_state E, glob')).1))
  exact congrArg (fun s => calculate_results E (close_all_positions s))
    (fold_candles_fst_glob E candles (initial_state E, glob) (initial_state E, glob') rfl)

/-- When every previous equity is positive, the guarded return extraction
keeps every consecutive pair. -/
lemma filterMap_pos_eq_map :
    ∀ (l : List ((Int × ℚ) × (Int × ℚ))), (∀ x ∈ l, 0 < x.1.2) →
      l.filterMap
          (fun pc => if pc.1.2 > 0 then some ((pc.2.2 - pc.1.2) / pc.1.2) else none)
        = l.map (fun pc => (pc.2.2 - pc.1.2) / pc.1.2) := by
  intro l
  induction l with
  | nil => intro _; rfl
  | cons x xs ih =>
      intro h
      rw [List.filterMap_cons, List.map_cons]
      rw [if_pos (h x (List.mem_cons_self x xs))]
      rw [ih (fun y hy => h y (List.mem_cons_of_mem x hy))]

/-- The Sharpe value reported by `_calculate_results`, extracted from the
record plumbing. -/
lemma calculate_results_sharpe_raw {α σ : Type} (E : BacktestEngine α σ)
    (s : EngineState α) (h : ¬s.trades.length = 0) :
    (calculate_results E s).sharpe
      = (if s.equity_curve.length > 1 then
          let daily_returns :=
            (s.equity_curve.zip (s.equity_curve.drop 1)).filterMap
              (fun pc => if pc.1.2 > 0 then some ((pc.2.2 - pc.1.2) / pc.1.2) else none)
          if daily_returns ≠ [] then
            let avg_ret := daily_returns.sum / daily_returns.length
            let std_ret := if daily_returns.length > 1 then E.stdev daily_returns else 1
            if std_ret > 0 then avg_ret * decimal_sqrt_252 / std_ret else 0
          else 0
        else 0) := by
  simp only [calculate_results, if_neg h]
  simp only [apply_ite BacktestResult.sharpe, ite_self]

/-- Claim C7 (amended): for every backtest state with at least one trade and
positive recorded equities, the reported Sharpe ratio equals the per-bar
return formula `mean(r) x sqrt(252) / stdev(r)` when `n >= 2` and
`stdev > 0`, `0` when `n = 0` or `stdev <= 0` -- but `mean(r) x sqrt(252)`
(not 0) when `n = 1`, the code substituting 1 for the standard deviation. -/
theorem sharpe_formula (α σ : Type) (E : BacktestEngine α σ) (s : EngineState α)
    (h1 : s.trades ≠ []) (h2 : ∀ e ∈ s.equity_curve, 0 < e.2) :
    (calculate_results E s).sharpe = sharpe_spec E.stdev s.equity_curve := by
  have hlen : ¬s.trades.length = 0 := by simpa using h1
  rw [calculate_results_sharpe_raw E s hlen]
  have hfm : (s.equity_curve.zip (s.equity_curve.drop 1)).filterMap
        (fun pc => if pc.1.2 > 0 then some ((pc.2.2 - pc.1.2) / pc.1.2) else none)
      = (s.equity_curve.zip (s.equity_curve.drop 1)).map
        (fun pc => (pc.2.2 - pc.1.2) / pc.1.2) := by
    apply filterMap_pos_eq_map
    intro x hx
    obtain ⟨a, b⟩ := x
    exact h2 a (List.of_mem_zip hx).1
  rw [sharpe_spec, hfm]
  set r := (s.equity_curve.zip (s.equity_curve.drop 1)).map
    (fun pc => (pc.2.2 - pc.1.2) / pc.1.2) with hr
  have hrlen : r.length = min s.equity_curve.length (s.equity_curve.length - 1) := by
    rw [hr]
    simp [List.length_zip]
  by_cases hgt : s.equity_curve.length > 1
  · have hr1 : r.length = s.equity_curve.length - 1 := by
      rw [hrlen]
      exact min_eq_right (Nat.sub_le _ _)
    have hrne : r ≠ [] := by
      intro h0
      rw [h0] at hr1
      simp only [List.length_nil] at hr1
      omega
    have hrne0 : ¬r.length = 0 := by simpa [List.length_eq_zero] using hrne
    rw [if_pos hgt, if_pos hrne, if_neg hrne0]
    by_cases hone : r.length = 1
    · rw [if_neg (by omega : ¬r.length > 1), if_pos hone, if_pos (by norm_num : (1:ℚ) > 0)]
      rw [div_one]
    · have hgt1 : r.length > 1 := by omega
      rw [if_pos hgt1, if_neg hone]
  · have hr0 : r.length = 0 := by
      rw [hrlen]
      omega
    rw [if_neg hgt, if_pos hr0]

/-- Witness for C7's amended statement at a one-trade state with equity
curve [(1, 100000), (2, 100979)]. -/
theorem sharpe_formula_witness :
    stateW7.trades ≠ [] ∧
    (calculate_results engineNull stateW7).sharpe
      = sharpe_spec engineNull.stdev stateW7.equity_curve := by
  refine ⟨by simp [stateW7], ?_⟩
  apply sharpe_formula Unit Unit engineNull stateW7 (by simp [stateW7])
  intro e he
  simp only [stateW7, List.mem_cons, List.not_mem_nil, or_false] at he
  rcases he with rfl | rfl <;> norm_num

/-- Counterexample for C7 as stated: a completed two-bar backtest with a
single per-bar return (n = 1) reports a nonzero Sharpe ratio, where the
claim requires 0. -/
theorem sharpe_n1_counterexample :
    (run engineTwoBar glob0 [mkCandle "BTC" 1 100, mkCandle "BTC" 2 110]).daily_returns.length
      = 1 ∧
    (run engineTwoBar glob0 [mkCandle "BTC" 1 100, mkCandle "BTC" 2 110]).sharpe ≠ 0 := by
  constructor <;>
    norm_num [show ∀ x : ℚ, (some x = none) = False from fun x => by simp,
      Option.some_ne_none,
      show (OrderSide.sell = OrderSide.buy) = False from by simp,
      show (OrderSide.buy = OrderSide.sell) = False from by simp,
      run, run_state, process_candle, process_candle_pre, process_signals,
      process_candle_post, initial_state, process_candle_sync, process_signal,
      open_position, close_position, get_fill_simulator, FillSimulator.init,
      FillSimulator.simulate_fill, FillSimulator.calculate_slippage,
      FillSimulator.calculate_latency_ms, FillSimulator.calculate_commission,
      FillSimulator.get_slippage_bps, FillSimulator.get_min_latency_ms,
      FillLogicSettings.get_slippage_bps, fill_base_price, calculate_equity,
      calculate_results, update_position_pnl, dget, dset, ddel, dvalues, midRandom,
      twoBarStrategy, cfgEx, engineTwoBar, glob0, mkCandle,
      SigEngineState.update_position, BrokerStubState.set_price, close_all_positions,
      close_position_at_end, Order.remaining_quantity, OrderSide.value, pyInt,
      decimal_sqrt_252, reduceCtorEq] <;>
    norm_num [List.filterMap_cons, decimal_sqrt_252]

/-- The guarded gross-profit expression equals the plain sum (the sum over
an empty list is zero). -/
lemma gross_profit_if (l : List TradeRecord) :
    (if l ≠ [] then (l.map TradeRecord.pnl).sum else 0) = (l.map TradeRecord.pnl).sum := by
  by_cases h : l = [] <;> simp [h]

/-- The profit factor reported by `_calculate_results`, extracted from the
record plumbing. -/
lemma calculate_results_profit_factor {α σ : Type} (E : BacktestEngine α σ)
    (s : EngineState α) (h : ¬s.trades.length = 0) :
    (calculate_results E s).profit_factor
      = if (if (s.trades.filter (fun t => t.pnl ≤ 0)) ≠ []
              then |((s.trades.filter (fun t => t.pnl ≤ 0)).map TradeRecord.pnl).sum|
              else 1 / 100) > 0
          then (if (s.trades.filter (fun t => t.pnl > 0)) ≠ []
                  then ((s.trades.filter (fun t => t.pnl > 0)).map TradeRecord.pnl).sum
                  else 0)
               / (if (s.trades.filter (fun t => t.pnl ≤ 0)) ≠ []
                    then |((s.trades.filter (fun t => t.pnl ≤ 0)).map TradeRecord.pnl).sum|
                    else 1 / 100)
          else 0 := by
  simp only [calculate_results, if_neg h]
  simp only [apply_ite BacktestResult.profit_factor, ite_self]

/-- Claim C8 (amended): with at least one trade, the reported profit factor
is `Σ wins / |Σ losses|` when losing trades exist and their sum is nonzero;
`Σ wins / 0.01` when there is no losing trade (the only case the 0.01 clamp
applies); and `0` when losing trades exist but sum to zero. -/
theorem profit_factor_formula (α σ : Type) (E : BacktestEngine α σ) (s : EngineState α)
    (h : s.trades ≠ []) :
    ((s.trades.filter (fun t => t.pnl ≤ 0) = [] →
        (calculate_results E s).profit_factor
          = ((s.trades.filter (fun t => t.pnl > 0)).map TradeRecord.pnl).sum / (1 / 100)) ∧
     (((s.trades.filter (fun t => t.pnl ≤ 0)).map TradeRecord.pnl).sum ≠ 0 →
        (calculate_results E s).profit_factor
          = ((s.trades.filter (fun t => t.pnl > 0)).map TradeRecord.pnl).sum
              / |((s.trades.filter (fun t => t.pnl ≤ 0)).map TradeRecord.pnl).sum|) ∧
     ((s.trades.filter (fun t => t.pnl ≤ 0) ≠ [] ∧
        ((s.trades.filter (fun t => t.pnl ≤ 0)).map TradeRecord.pnl).sum = 0) →
        (calculate_results E s).profit_factor = 0)) := by
  have hlen : ¬s.trades.length = 0 := by simpa using h
  rw [calculate_results_profit_factor E s hlen, gross_profit_if]
  refine ⟨?_, ?_, ?_⟩
  · intro hlo
    simp only [hlo]
    norm_num
  · intro hsum
    have hlo : s.trades.filter (fun t => t.pnl ≤ 0) ≠ [] := by
      intro h0
      rw [h0] at hsum
      simp at hsum
    have habs : |((s.trades.filter (fun t => t.pnl ≤ 0)).map TradeRecord.pnl).sum| > 0 :=
      abs_pos.mpr hsum
    simp only [if_pos hlo, if_pos habs]
  · rintro ⟨hlo, hsum⟩
    simp only [if_pos hlo, hsum, abs_zero]
    norm_num


/-- Witness for C8's amended statement: trades with pnl 5 and -2 give
profit factor 5/2. -/
theorem profit_factor_formula_witness :
    stateW8.trades ≠ [] ∧
    (calculate_results engineNull stateW8).profit_factor = 5 / 2 := by
  refine ⟨by simp [stateW8], ?_⟩
  have h := (profit_factor_formula Unit Unit engineNull stateW8
    (by simp [stateW8])).2.1 (by norm_num [stateW8, tradeP, tradeN])
  rw [h]
  norm_num [stateW8, tradeP, tradeN]

set_option maxHeartbeats 1600000 in
/-- Counterexample for C8 as stated: a completed backtest whose trades are a
979-pnl winner and a 0-pnl loser reports profit factor 0, while the claim's
clamped formula gives 979 / 0.01 = 97900. -/
theorem profit_factor_counterexample :
    (run engineExitReenter glob0
        [mkCandle "BTC" 1 100, mkCandle "BTC" 2 110]).total_trades = 2 ∧
    (run engineExitReenter glob0
        [mkCandle "BTC" 1 100, mkCandle "BTC" 2 110]).profit_factor = 0 ∧
    profit_factor_spec (run engineExitReenter glob0
        [mkCandle "BTC" 1 100, mkCandle "BTC" 2 110]).trades = 97900 := by
  refine ⟨?_, ?_, ?_⟩ <;>
    norm_num [show ∀ x : ℚ, (some x = none) = False from fun x => by simp,
      show (OrderSide.sell = OrderSide.buy) = False from by simp,
      show (OrderSide.buy = OrderSide.sell) = False from by simp,
      run, run_state, process_candle, process_candle_pre, process_signals,
      process_candle_post, initial_state, process_candle_sync, process_signal,
      open_position, close_position, get_fill_simulator, FillSimulator.init,
      FillSimulator.simulate_fill, FillSimulator.calculate_slippage,
      FillSimulator.calculate_latency_ms, FillSimulator.calculate_commission,
      FillSimulator.get_slippage_bps, FillSimulator.get_min_latency_ms,
      FillLogicSettings.get_slippage_bps, fill_base_price, calculate_equity,
      calculate_results, update_position_pnl, dget, dset, ddel, dvalues, midRandom,
      exitReenterStrategy, cfgEx, engineExitReenter, glob0, mkCandle,
      SigEngineState.update_position, BrokerStubState.set_price, close_all_positions,
      close_position_at_end, Order.remaining_quantity, OrderSide.value, pyInt,
      profit_factor_spec, reduceCtorEq] <;>
    norm_num [List.filterMap_cons, profit_factor_spec]

end VibeTrading
